import Mathlib

/-!
Verification of the Banner Generation and Caching Engine of the loved-cli
repository (src/src/services/BannerService.ts).

The development shallowly embeds `BannerService`:

* the cover-fit layout computation (lines 104-116) as `coverFit` over `ℚ`;
* the title truncation (lines 119-136) as `truncateTitle` / `displayTitleOf`,
  parameterised by an abstract text-measure function standing for
  `context.measureText` of the external canvas library;
* the cache file serialisation of `loadCache` / `saveCache`
  (lines 43-44 and 55) as `splitNL` / `joinNL` over `List Char`,
  mirroring the JavaScript split-on-newline / join / filter(Boolean);
* the orchestrator `createBanner` (lines 77-184) as a pure state-passing
  function over an explicit `World` (output files, cache index file) and
  `Svc` (in-memory cache set) with an `Env` of deterministic external
  operations (file reads, image decode, rasterisation, JPEG encode) each of
  which may fail; the run also produces a trace of performed operations.
-/

/-! ## Constants (BannerService.ts lines 11-13) -/

def UNSCALED_WIDTH : ℕ := 670

def UNSCALED_HEIGHT : ℕ := 200

/-! ## Layout Engine: cover-fit (BannerService.ts lines 104-116)

The drawn background rectangle: `drawImage(backgroundImage, x, y, width,
height)` in unscaled (1x) canvas coordinates.  All four fields are rational
since the source computes with JavaScript numbers by division. -/

structure Layout where
  x : ℚ
  y : ℚ
  width : ℚ
  height : ℚ
deriving DecidableEq, Repr

/-- Embeds lines 104-116: the if-branch overwrites only the height
(width stays `UNSCALED_WIDTH`), the else-branch only the width. -/
def coverFit (w h : ℚ) : Layout :=
  let backgroundImageRatio := w / h
  let canvasRatio := (UNSCALED_WIDTH : ℚ) / (UNSCALED_HEIGHT : ℚ)
  let unscaledBackgroundImageWidth :=
    if backgroundImageRatio < canvasRatio then (UNSCALED_WIDTH : ℚ)
    else (UNSCALED_HEIGHT : ℚ) * backgroundImageRatio
  let unscaledBackgroundImageHeight :=
    if backgroundImageRatio < canvasRatio then (UNSCALED_WIDTH : ℚ) / backgroundImageRatio
    else (UNSCALED_HEIGHT : ℚ)
  { x := ((UNSCALED_WIDTH : ℚ) - unscaledBackgroundImageWidth) / 2
    y := ((UNSCALED_HEIGHT : ℚ) - unscaledBackgroundImageHeight) / 2
    width := unscaledBackgroundImageWidth
    height := unscaledBackgroundImageHeight }

/-- The property bundle claimed for the cover-fit computation: branch
selection, aspect-ratio preservation, centering offsets, and full coverage
of the 670x200 canvas (equivalently, the implied crop rectangle lies within
the source bounds). -/
def CoverFitSpec (w h : ℚ) : Prop :=
  (w / h < (UNSCALED_WIDTH : ℚ) / (UNSCALED_HEIGHT : ℚ) →
    (coverFit w h).width = (UNSCALED_WIDTH : ℚ)) ∧
  ((UNSCALED_WIDTH : ℚ) / (UNSCALED_HEIGHT : ℚ) ≤ w / h →
    (coverFit w h).height = (UNSCALED_HEIGHT : ℚ)) ∧
  (coverFit w h).width / (coverFit w h).height = w / h ∧
  (coverFit w h).x = ((UNSCALED_WIDTH : ℚ) - (coverFit w h).width) / 2 ∧
  (coverFit w h).y = ((UNSCALED_HEIGHT : ℚ) - (coverFit w h).height) / 2 ∧
  (coverFit w h).x ≤ 0 ∧
  (UNSCALED_WIDTH : ℚ) ≤ (coverFit w h).x + (coverFit w h).width ∧
  (coverFit w h).y ≤ 0 ∧
  (UNSCALED_HEIGHT : ℚ) ≤ (coverFit w h).y + (coverFit w h).height

/-- C2: for every source image with positive dimensions, the cover-fit
computation scales to width 670 exactly when `w/h < 670/200`, otherwise to
height 200, preserves the source aspect ratio, centers via
`offset = (canvas - scaled)/2`, and the placed image fully covers the
670x200 canvas. -/
theorem coverFit_spec (w h : ℚ) (hw : 0 < w) (hh : 0 < h) : CoverFitSpec w h := by
  have hr : 0 < w / h := div_pos hw hh
  have hrne : w / h ≠ 0 := ne_of_gt hr
  have hq1 : ((UNSCALED_WIDTH : ℕ) : ℚ) = 670 := by norm_num [UNSCALED_WIDTH]
  have hq2 : ((UNSCALED_HEIGHT : ℕ) : ℚ) = 200 := by norm_num [UNSCALED_HEIGHT]
  unfold CoverFitSpec
  by_cases hcase : w / h < (UNSCALED_WIDTH : ℚ) / (UNSCALED_HEIGHT : ℚ)
  · have hfit : coverFit w h =
        { x := ((UNSCALED_WIDTH : ℚ) - (UNSCALED_WIDTH : ℚ)) / 2
          y := ((UNSCALED_HEIGHT : ℚ) - (UNSCALED_WIDTH : ℚ) / (w / h)) / 2
          width := (UNSCALED_WIDTH : ℚ)
          height := (UNSCALED_WIDTH : ℚ) / (w / h) } := by
      simp only [coverFit, if_pos hcase]
    rw [hfit] at *
    dsimp only at *
    rw [hq1, hq2] at *
    have h200 : (200 : ℚ) < 670 / (w / h) := by
      rw [lt_div_iff₀ hr]
      nlinarith
    refine ⟨fun _ => rfl, fun hc => absurd hcase (not_lt.mpr hc), ?_, rfl, rfl,
      by linarith, by linarith, by linarith, by linarith⟩
    field_simp
    ring
  · have hfit : coverFit w h =
        { x := ((UNSCALED_WIDTH : ℚ) - (UNSCALED_HEIGHT : ℚ) * (w / h)) / 2
          y := ((UNSCALED_HEIGHT : ℚ) - (UNSCALED_HEIGHT : ℚ)) / 2
          width := (UNSCALED_HEIGHT : ℚ) * (w / h)
          height := (UNSCALED_HEIGHT : ℚ) } := by
      simp only [coverFit, if_neg hcase]
    rw [hfit] at *
    dsimp only at *
    rw [hq1, hq2] at *
    have hge : (670 : ℚ) / 200 ≤ w / h := not_lt.mp hcase
    have h670 : (670 : ℚ) ≤ 200 * (w / h) := by
      rw [div_le_iff₀ (by norm_num : (0 : ℚ) < 200)] at hge
      linarith
    refine ⟨fun hc => absurd hc hcase, fun _ => rfl, ?_, rfl, rfl,
      by linarith, by linarith, by linarith, by linarith⟩
    field_simp
    ring

/-- Witness for C2 at the concrete extreme aspect ratios named in the spec
(2000x200 and 200x2000). -/
theorem coverFit_spec_witness :
    ((0 : ℚ) < 2000 ∧ (0 : ℚ) < 200 ∧ CoverFitSpec 2000 200) ∧
    ((0 : ℚ) < 200 ∧ (0 : ℚ) < 2000 ∧ CoverFitSpec 200 2000) :=
  ⟨⟨by norm_num, by norm_num, coverFit_spec 2000 200 (by norm_num) (by norm_num)⟩,
   ⟨by norm_num, by norm_num, coverFit_spec 200 2000 (by norm_num) (by norm_num)⟩⟩

/-! ## Layout Engine: title truncation (BannerService.ts lines 119-136)

The text measure (`context.measureText(s).width` at font `21px Torus`) is an
external font metric; it is embedded as an abstract function
`m : String → ℚ`.  The only assumption the claims supply about it is
monotonicity under string prefixes. -/

def ellipsis : String := "..."

/-- Line 122: `titleMaxWidth = UNSCALED_WIDTH - 2 * 16`. -/
def titleMaxWidth : ℚ := (UNSCALED_WIDTH : ℚ) - 2 * 16

/-- JavaScript `s.slice(0, -1)`: drop the last character. -/
def strDropLast (s : String) : String := String.mk s.data.dropLast

theorem strDropLast_length (s : String) : (strDropLast s).length = s.length - 1 :=
  List.length_dropLast s.data

/-- Lines 131-134: the while loop.
`while (measureText(truncatedTitle + "...").width > titleMaxWidth && truncatedTitle.length > 0)
   truncatedTitle = truncatedTitle.slice(0, -1)`. -/
def truncateTitle (m : String → ℚ) (t : String) : String :=
  if titleMaxWidth < m (t ++ ellipsis) ∧ 0 < t.length then truncateTitle m (strDropLast t)
  else t
termination_by t.length
decreasing_by
  rename_i h
  have hlen : (strDropLast t).length = t.length - 1 := strDropLast_length t
  omega

/-- Lines 123-136: `displayTitle` as a function of the measure and the title.
Line 126 gates on `titleWidth > titleMaxWidth`; line 135 appends the
ellipsis only if truncation dropped at least one character. -/
def displayTitleOf (m : String → ℚ) (title : String) : String :=
  if titleMaxWidth < m title then
    let truncatedTitle := truncateTitle m title
    if truncatedTitle.length < title.length then truncatedTitle ++ ellipsis else truncatedTitle
  else title

/-- A text-measure function that is monotone under taking prefixes. -/
def MonoMeasure (m : String → ℚ) : Prop :=
  ∀ s t : String, s.data <+: t.data → m s ≤ m t

theorem truncateTitle_truncates (m : String → ℚ) (t : String) :
    (truncateTitle m t).data <+: t.data := by
  induction t using truncateTitle.induct m with
  | case1 t h ih =>
      rw [truncateTitle, if_pos h]
      exact ih.trans (List.dropLast_prefix t.data)
  | case2 t h =>
      rw [truncateTitle, if_neg h]

theorem truncateTitle_exit (m : String → ℚ) (t : String) :
    ¬(titleMaxWidth < m (truncateTitle m t ++ ellipsis) ∧ 0 < (truncateTitle m t).length) := by
  induction t using truncateTitle.induct m with
  | case1 t h ih =>
      rw [truncateTitle, if_pos h]
      exact ih
  | case2 t h =>
      rw [truncateTitle, if_neg h]
      exact h

theorem truncateTitle_length_lt (m : String → ℚ) (t : String)
    (h1 : titleMaxWidth < m (t ++ ellipsis)) (h2 : 0 < t.length) :
    (truncateTitle m t).length < t.length := by
  rw [truncateTitle, if_pos ⟨h1, h2⟩]
  have hle : (truncateTitle m (strDropLast t)).length ≤ (strDropLast t).length :=
    (truncateTitle_truncates m (strDropLast t)).length_le
  have hlen : (strDropLast t).length = t.length - 1 := strDropLast_length t
  omega

theorem truncateTitle_empty (m : String → ℚ) (t : String)
    (H : ∀ p : String, p.data <+: t.data → titleMaxWidth < m (p ++ ellipsis)) :
    truncateTitle m t = "" := by
  revert H
  induction t using truncateTitle.induct m with
  | case1 t h ih =>
      intro H
      rw [truncateTitle, if_pos h]
      exact ih fun p hp => H p (hp.trans (List.dropLast_prefix t.data))
  | case2 t h =>
      intro H
      rw [truncateTitle, if_neg h]
      have h1 := H t (List.prefix_refl t.data)
      have h2 : ¬0 < t.length := fun hc => h ⟨h1, hc⟩
      have hlen : t.length = t.data.length := rfl
      have h3 : t.data = [] := List.length_eq_zero.mp (by omega)
      cases t
      simp_all

theorem str_eq_empty_of_data {s : String} (h : s.data = []) : s = "" := by
  cases s
  simp_all

/-- The property bundle of claim C3 for one measure and one title: the
rendered title fits within 638 logical px, an overflowing title becomes a
proper prefix of the title with the ellipsis appended, and a fitting title
passes through unmodified. -/
def TruncationSpec (m : String → ℚ) (title : String) : Prop :=
  m (displayTitleOf m title) ≤ titleMaxWidth ∧
  (titleMaxWidth < m title →
    ∃ p : String, displayTitleOf m title = p ++ ellipsis ∧ p.data <+: title.data ∧
      p.length < title.length) ∧
  (m title ≤ titleMaxWidth → displayTitleOf m title = title)

/-- C3 (amended): truncation is correct for every prefix-monotone measure
under which the ellipsis itself fits within the available width. -/
theorem displayTitle_spec (m : String → ℚ) (title : String) (hm : MonoMeasure m)
    (he : m ellipsis ≤ titleMaxWidth) : TruncationSpec m title := by
  unfold TruncationSpec
  by_cases hgate : titleMaxWidth < m title
  · have htne : 0 < title.length := by
      rcases Nat.eq_zero_or_pos title.length with h0 | h0
      · exfalso
        have hlen : title.length = title.data.length := rfl
        have hdata : title.data = [] := List.length_eq_zero.mp (by omega)
        have htitle : title = "" := str_eq_empty_of_data hdata
        rw [htitle] at hgate
        have hmono : m "" ≤ m ellipsis := hm "" ellipsis ⟨ellipsis.data, by simp⟩
        linarith
      · exact h0
    have hpre : title.data <+: (title ++ ellipsis).data := by
      simp only [String.data_append]
      exact List.prefix_append _ _
    have hstart : titleMaxWidth < m (title ++ ellipsis) :=
      lt_of_lt_of_le hgate (hm title (title ++ ellipsis) hpre)
    have hlt : (truncateTitle m title).length < title.length :=
      truncateTitle_length_lt m title hstart htne
    have hdisp : displayTitleOf m title = truncateTitle m title ++ ellipsis := by
      unfold displayTitleOf
      rw [if_pos hgate]
      show (if (truncateTitle m title).length < title.length
        then truncateTitle m title ++ ellipsis else truncateTitle m title) =
        truncateTitle m title ++ ellipsis
      rw [if_pos hlt]
    refine ⟨?_, fun _ => ⟨truncateTitle m title, hdisp, truncateTitle_truncates m title, hlt⟩,
      fun hc => absurd hgate (not_lt.mpr hc)⟩
    rw [hdisp]
    rcases not_and_or.mp (truncateTitle_exit m title) with hfit | hlen0
    · exact not_lt.mp hfit
    · have hlen : (truncateTitle m title).length = (truncateTitle m title).data.length := rfl
      have hdata : (truncateTitle m title).data = [] := List.length_eq_zero.mp (by omega)
      have hemp : truncateTitle m title = "" := str_eq_empty_of_data hdata
      rw [hemp]
      have happ : ("" ++ ellipsis : String) = ellipsis := rfl
      rw [happ]
      exact he
  · have hdisp : displayTitleOf m title = title := by
      unfold displayTitleOf
      rw [if_neg hgate]
    refine ⟨?_, fun hc => absurd hc hgate, fun _ => hdisp⟩
    rw [hdisp]
    exact not_lt.mp hgate

/-- A measure under which every string, ellipsis included, overflows the
available width; it is monotone under prefixes. -/
def measureC3 : String → ℚ := fun s => 1000 * s.length + 700

theorem measureC3_mono : MonoMeasure measureC3 := by
  intro s t h
  have hle : s.data.length ≤ t.data.length := h.length_le
  unfold measureC3
  have h1 : s.length = s.data.length := rfl
  have h2 : t.length = t.data.length := rfl
  rw [h1, h2]
  have hc : (s.data.length : ℚ) ≤ t.data.length := by exact_mod_cast hle
  linarith

theorem measureC3_big (s : String) : titleMaxWidth < measureC3 s := by
  unfold measureC3 titleMaxWidth UNSCALED_WIDTH
  have hc : (0 : ℚ) ≤ (s.length : ℚ) := Nat.cast_nonneg _
  push_cast
  linarith

/-- C3 counterexample: under the prefix-monotone measure `measureC3` the
display title produced for the title `"a"` measures wider than 638 logical
px, refuting the unconditional width bound of the claim (the degenerate
truncation path of C8 ends at the bare ellipsis, which this measure still
rejects). -/
theorem displayTitle_width_counterexample :
    MonoMeasure measureC3 ∧
    titleMaxWidth < measureC3 (displayTitleOf measureC3 "a") := by
  refine ⟨measureC3_mono, ?_⟩
  have htr : truncateTitle measureC3 "a" = "" :=
    truncateTitle_empty measureC3 "a" fun p _ => measureC3_big (p ++ ellipsis)
  have hdisp : displayTitleOf measureC3 "a" = ellipsis := by
    unfold displayTitleOf
    rw [if_pos (measureC3_big "a")]
    simp only [htr]
    decide
  rw [hdisp]
  exact measureC3_big ellipsis

/-- A prefix-monotone measure for the tiny witness titles: fits easily. -/
def measureSmall : String → ℚ := fun s => 10 * s.length

theorem measureSmall_mono : MonoMeasure measureSmall := by
  intro s t h
  have hle : s.data.length ≤ t.data.length := h.length_le
  unfold measureSmall
  have h1 : s.length = s.data.length := rfl
  have h2 : t.length = t.data.length := rfl
  rw [h1, h2]
  have hc : (s.data.length : ℚ) ≤ t.data.length := by exact_mod_cast hle
  linarith

/-- Witness for C3 (amended) at a concrete monotone measure and title. -/
theorem displayTitle_spec_witness :
    MonoMeasure measureSmall ∧ measureSmall ellipsis ≤ titleMaxWidth ∧
    TruncationSpec measureSmall "abc" :=
  ⟨measureSmall_mono,
   by
     unfold measureSmall titleMaxWidth UNSCALED_WIDTH
     have h3 : ellipsis.length = 3 := rfl
     rw [h3]
     norm_num,
   displayTitle_spec measureSmall "abc" measureSmall_mono
     (by
       unfold measureSmall titleMaxWidth UNSCALED_WIDTH
       have h3 : ellipsis.length = 3 := rfl
       rw [h3]
       norm_num)⟩

/-- A measure under which no candidate ever fits (monotone under prefixes);
drives the truncation loop of lines 131-134 into its degenerate case. -/
def measureC8 : String → ℚ := fun s => 1000 * s.length + 700

theorem measureC8_mono : MonoMeasure measureC8 := by
  intro s t h
  have hle : s.data.length ≤ t.data.length := h.length_le
  unfold measureC8
  have h1 : s.length = s.data.length := rfl
  have h2 : t.length = t.data.length := rfl
  rw [h1, h2]
  have hc : (s.data.length : ℚ) ≤ t.data.length := by exact_mod_cast hle
  linarith

theorem measureC8_big (s : String) : titleMaxWidth < measureC8 s := by
  unfold measureC8 titleMaxWidth UNSCALED_WIDTH
  have hc : (0 : ℚ) ≤ (s.length : ℚ) := Nat.cast_nonneg _
  push_cast
  linarith

/-- C8 counterexample: for the title `"a"` under `measureC8` every prefix
with the ellipsis appended overflows, the loop does run until the candidate
is empty, but the displayed title is not the empty string (line 135 appends
the ellipsis because a character was dropped). -/
theorem truncateDegenerate_counterexample :
    MonoMeasure measureC8 ∧
    (∀ p : String, p.data <+: ("a" : String).data →
      titleMaxWidth < measureC8 (p ++ ellipsis)) ∧
    truncateTitle measureC8 "a" = "" ∧
    displayTitleOf measureC8 "a" ≠ "" := by
  have htr : truncateTitle measureC8 "a" = "" :=
    truncateTitle_empty measureC8 "a" fun p _ => measureC8_big (p ++ ellipsis)
  have hdisp : displayTitleOf measureC8 "a" = ellipsis := by
    unfold displayTitleOf
    rw [if_pos (measureC8_big "a")]
    simp only [htr]
    decide
  refine ⟨measureC8_mono, fun p _ => measureC8_big (p ++ ellipsis), htr, ?_⟩
  rw [hdisp]
  decide

/-- C8 (amended): when the title is nonempty, overflows, and no prefix with
the ellipsis appended fits, the truncation loop runs until the candidate is
empty and the displayed title is exactly the bare ellipsis (it consists of
no character of the title, but it is not the empty string). -/
theorem truncateDegenerate (m : String → ℚ) (title : String)
    (h1 : 0 < title.length) (h2 : titleMaxWidth < m title)
    (H : ∀ p : String, p.data <+: title.data → titleMaxWidth < m (p ++ ellipsis)) :
    truncateTitle m title = "" ∧ displayTitleOf m title = ellipsis := by
  have htr := truncateTitle_empty m title H
  refine ⟨htr, ?_⟩
  unfold displayTitleOf
  rw [if_pos h2]
  simp only [htr]
  have h1e : ("" : String).length < title.length := h1
  rw [if_pos h1e]
  rfl

/-- Witness for C8 (amended) at the concrete measure and title of the
counterexample. -/
theorem truncateDegenerate_witness :
    (0 < ("a" : String).length ∧ titleMaxWidth < measureC8 "a" ∧
      (∀ p : String, p.data <+: ("a" : String).data →
        titleMaxWidth < measureC8 (p ++ ellipsis))) ∧
    (truncateTitle measureC8 "a" = "" ∧ displayTitleOf measureC8 "a" = ellipsis) :=
  ⟨⟨by decide, measureC8_big "a", fun p _ => measureC8_big (p ++ ellipsis)⟩,
   truncateDegenerate measureC8 "a" (by decide) (measureC8_big "a")
     (fun p _ => measureC8_big (p ++ ellipsis))⟩

/-! ## Cache Store serialisation (BannerService.ts lines 39-56)

Line 44: `new Set(contents.split("\n").filter(Boolean))`; line 55:
`writeFile(cachePath, [...cache.values()].join("\n"))`.  The file contents
are modelled as `List Char`, the JavaScript split / join on the single
newline character as `splitNL` / `joinNL`, and `filter(Boolean)` as
discarding empty lines. -/

def splitNL : List Char → List (List Char)
  | [] => [[]]
  | c :: cs =>
    if c = '\n' then [] :: splitNL cs
    else
      match splitNL cs with
      | [] => [[c]]
      | h :: t => (c :: h) :: t

def joinNL : List (List Char) → List Char
  | [] => []
  | [k] => k
  | k :: ks => k ++ '\n' :: joinNL ks

/-- Line 44: the set of keys read back from the cache file contents. -/
def loadKeys (contents : List Char) : List (List Char) :=
  (splitNL contents).filter fun k => !k.isEmpty

theorem splitNL_no_newline (l : List Char) (h : '\n' ∉ l) : splitNL l = [l] := by
  induction l with
  | nil => rfl
  | cons c cs ih =>
      have hc : ¬c = '\n' := fun hh => h (hh ▸ List.mem_cons_self c cs)
      have hcs : '\n' ∉ cs := fun hh => h (List.mem_cons_of_mem c hh)
      rw [splitNL, if_neg hc, ih hcs]

theorem splitNL_append (k s : List Char) (h : '\n' ∉ k) :
    splitNL (k ++ '\n' :: s) = k :: splitNL s := by
  induction k with
  | nil =>
      show splitNL ('\n' :: s) = [] :: splitNL s
      rw [splitNL, if_pos rfl]
  | cons c cs ih =>
      have hc : ¬c = '\n' := fun hh => h (hh ▸ List.mem_cons_self c cs)
      have hcs : '\n' ∉ cs := fun hh => h (List.mem_cons_of_mem c hh)
      show splitNL (c :: (cs ++ '\n' :: s)) = (c :: cs) :: splitNL s
      rw [splitNL, if_neg hc, ih hcs]

/-- C9: persisting a list of nonempty newline-free keys with the `saveCache`
serialisation and reading it back with the `loadCache` parsing yields
exactly the same keys (in particular the empty collection round-trips,
because blank lines are filtered out on load). -/
theorem cacheRoundTrip :
    ∀ keys : List (List Char), (∀ k ∈ keys, k ≠ [] ∧ '\n' ∉ k) →
      loadKeys (joinNL keys) = keys := by
  intro keys
  induction keys with
  | nil => intro _; rfl
  | cons k ks ih =>
      intro h
      have hk := h k (List.mem_cons_self k ks)
      have hne : (!k.isEmpty) = true := by
        cases k
        · exact absurd rfl hk.1
        · rfl
      cases ks with
      | nil =>
          show loadKeys (joinNL [k]) = [k]
          have hj : joinNL [k] = k := rfl
          rw [hj]
          unfold loadKeys
          rw [splitNL_no_newline k hk.2, List.filter_cons, if_pos hne]
          rfl
      | cons k2 ks2 =>
          have hj : joinNL (k :: k2 :: ks2) = k ++ '\n' :: joinNL (k2 :: ks2) := rfl
          show loadKeys (joinNL (k :: k2 :: ks2)) = k :: k2 :: ks2
          rw [hj]
          unfold loadKeys
          rw [splitNL_append k (joinNL (k2 :: ks2)) hk.2, List.filter_cons, if_pos hne]
          have hrest : loadKeys (joinNL (k2 :: ks2)) = k2 :: ks2 :=
            ih fun x hx => h x (List.mem_cons_of_mem k hx)
          unfold loadKeys at hrest
          rw [hrest]

/-- Witness for C9 on a concrete two-key cache and on the empty cache. -/
theorem cacheRoundTrip_witness :
    ((∀ k ∈ ([[ 'a' ], [ 'b', 'c' ]] : List (List Char)), k ≠ [] ∧ '\n' ∉ k) ∧
      loadKeys (joinNL [[ 'a' ], [ 'b', 'c' ]]) = [[ 'a' ], [ 'b', 'c' ]]) ∧
    ((∀ k ∈ ([] : List (List Char)), k ≠ [] ∧ '\n' ∉ k) ∧
      loadKeys (joinNL ([] : List (List Char))) = []) :=
  ⟨⟨by decide, cacheRoundTrip [[ 'a' ], [ 'b', 'c' ]] (by decide)⟩,
   ⟨by decide, cacheRoundTrip [] (by decide)⟩⟩

/-! ## Orchestrator `createBanner` (BannerService.ts lines 77-184)

The run is embedded as a pure state-passing function.  External effectful
operations (node file system, the canvas library, sharp) are supplied by a
deterministic `Env` whose fallible operations return `Option` / `Bool`
success flags; JPEG encoding preserves the raster dimensions, which is the
contract of `canvas.toBuffer` plus `sharp(...).jpeg().toFile`.  `World`
holds the on-disk state the service touches (output files and the cache
index file, the latter abstracted to its parsed list of keys, with `none`
for a missing or unreadable file); `BannerService` holds the in-memory
state of the class instance (lines 19-20).  Each run also yields the list
of operations it performed, so that "performs no encode" style claims are
directly expressible. -/

inductive BErr where
  | outputPathNotSet
  | readError
  | imageError
  | overlayError
  | encodeError
  | writeError
  | cacheWriteError
deriving DecidableEq, Repr

inductive Op where
  | readFileOp (path : String)
  | loadImageOp
  | rasterizeOp (scale : ℕ)
  | encodeOp (scale : ℕ)
  | writeFileOp (path : String)
  | writeCacheIndexOp
deriving DecidableEq, Repr

/-- A decoded image as the canvas library exposes it: its dimensions. -/
structure Img where
  width : ℚ
  height : ℚ
deriving DecidableEq, Repr

/-- An in-memory raster: canvas dimensions plus abstract pixel data. -/
structure Raster where
  width : ℕ
  height : ℕ
  pixels : ℕ
deriving DecidableEq, Repr

/-- An encoded JPEG: pixel dimensions plus abstract payload. -/
structure Jpeg where
  width : ℕ
  height : ℕ
  payload : ℕ
deriving DecidableEq, Repr

abbrev Bytes := List ℕ

/-- Deterministic environment of external operations used by the run. -/
structure Env where
  readFile : String → Option Bytes
  loadImage : Bytes → Option Img
  measure : String → ℚ
  hash : Bytes → String → String
  paint : Layout → String → ℕ → ℕ
  overlayOk : ℕ → Bool
  encOk : Raster → Bool
  encPayload : Raster → ℕ
  canWrite : String → Bool
  canWriteCache : Bool

/-- On-disk state: output files (newest association wins, modelling
overwrite) and the parsed cache index file (`none` = missing/unreadable). -/
structure World where
  outFiles : List (String × Jpeg)
  cacheIndex : Option (List String)
deriving DecidableEq, Repr

/-- In-memory state of the `BannerService` instance (lines 19-20). -/
structure BannerService where
  cache : List String
  cacheLoaded : Bool
deriving DecidableEq, Repr

deriving instance DecidableEq for Except

structure RunResult where
  res : Except BErr Bool
  svc : BannerService
  world : World
  trace : List Op
deriving DecidableEq

def resourcesPath : String := "resources"

/-- Lines 78-80: a missing (or falsy empty) background path resolves to the
default asset. -/
def resolveBackground (backgroundPath : Option String) : String :=
  match backgroundPath with
  | none => resourcesPath ++ "/voting-default-background.jpg"
  | some p => if p = "" then resourcesPath ++ "/voting-default-background.jpg" else p

/-- Lines 39-49: lazy cache load; a missing/unreadable index is an empty
cache, and errors are swallowed. -/
def loadCache (svc : BannerService) (w : World) : BannerService :=
  if svc.cacheLoaded then svc
  else { cache := w.cacheIndex.getD [], cacheLoaded := true }

def fileExists (w : World) (p : String) : Bool :=
  (w.outFiles.lookup p).isSome

def writeOut (w : World) (p : String) (j : Jpeg) : World :=
  { w with outFiles := (p, j) :: w.outFiles }

/-- Line 171: the per-scale output file name
`${outputPath}${scale > 1 ? `@${scale}x` : ""}.jpg`. -/
def outputFileName (outputPath : String) (scale : ℕ) : String :=
  outputPath ++ (if 1 < scale then "@" ++ toString scale ++ "x" else "") ++ ".jpg"

/-- The raster produced by lines 140-167 for one scale: a canvas of
`670*scale` by `200*scale` holding the background drawn at the scaled
layout, the overlay at the origin, and the display title. -/
def mkRaster (env : Env) (layout : Layout) (displayTitle : String) (scale : ℕ) : Raster :=
  { width := UNSCALED_WIDTH * scale
    height := UNSCALED_HEIGHT * scale
    pixels := env.paint layout displayTitle scale }

/-- The JPEG written by lines 170-178 for one scale: encoding preserves the
raster dimensions. -/
def mkJpeg (env : Env) (layout : Layout) (displayTitle : String) (scale : ℕ) : Jpeg :=
  { width := (mkRaster env layout displayTitle scale).width
    height := (mkRaster env layout displayTitle scale).height
    payload := env.encPayload (mkRaster env layout displayTitle scale) }

/-- Lines 139-179, the body of the `for (const scale of SCALES)` loop for
one scale: load the overlay asset (fallible), rasterize, encode to JPEG,
write the output file. -/
def renderAndWrite (env : Env) (w : World) (layout : Layout) (displayTitle : String)
    (outputPath : String) (scale : ℕ) : Except BErr Unit × World × List Op :=
  if env.overlayOk scale then
    if env.encOk (mkRaster env layout displayTitle scale) then
      if env.canWrite (outputFileName outputPath scale) then
        (Except.ok (),
         writeOut w (outputFileName outputPath scale) (mkJpeg env layout displayTitle scale),
         [Op.rasterizeOp scale, Op.encodeOp scale, Op.writeFileOp (outputFileName outputPath scale)])
      else (Except.error BErr.writeError, w, [Op.rasterizeOp scale, Op.encodeOp scale])
    else (Except.error BErr.encodeError, w, [Op.rasterizeOp scale])
  else (Except.error BErr.overlayError, w, [])

/-- Line 181: `this.cache.add(cacheKey)` on a JavaScript `Set`. -/
def addKey (cache : List String) (key : String) : List String :=
  if cache.contains key then cache else cache ++ [key]

/-- Line 97: the cache-hit condition.
`this.cache.has(cacheKey) && existsSync(outputPath + ".jpg") && existsSync(outputPath + "@2x.jpg")`
evaluated against the lazily loaded in-memory cache. -/
def cacheHit (env : Env) (svc : BannerService) (w : World) (backgroundBuffer : Bytes)
    (outputPath title : String) : Bool :=
  (loadCache svc w).cache.contains (env.hash backgroundBuffer title)
    && fileExists w (outputPath ++ ".jpg") && fileExists w (outputPath ++ "@2x.jpg")

/-- Lines 77-184: the orchestrator.  Returns the call result
(`Except.ok true` = generated, `Except.ok false` = used cached,
`Except.error` = the propagated failure), the final in-memory state, the
final on-disk state, and the performed operations in order. -/
def createBanner (env : Env) (svc : BannerService) (w : World)
    (backgroundPath : Option String) (outputPath : String) (title : String) : RunResult :=
  let bgPath := resolveBackground backgroundPath
  if outputPath = "" then
    { res := Except.error BErr.outputPathNotSet, svc := svc, world := w, trace := [] }
  else
    -- line 86: initFont(); registration errors are swallowed, no modelled state
    let svc1 := loadCache svc w
    match env.readFile bgPath with
    | none =>
        { res := Except.error BErr.readError, svc := svc1, world := w,
          trace := [Op.readFileOp bgPath] }
    | some backgroundBuffer =>
        let cacheKey := env.hash backgroundBuffer title
        if cacheHit env svc w backgroundBuffer outputPath title then
          { res := Except.ok false, svc := svc1, world := w,
            trace := [Op.readFileOp bgPath] }
        else
          match env.loadImage backgroundBuffer with
          | none =>
              { res := Except.error BErr.imageError, svc := svc1, world := w,
                trace := [Op.readFileOp bgPath, Op.loadImageOp] }
          | some backgroundImage =>
              let layout := coverFit backgroundImage.width backgroundImage.height
              let displayTitle := displayTitleOf env.measure title
              match renderAndWrite env w layout displayTitle outputPath 1 with
              | (Except.error e, w1, t1) =>
                  { res := Except.error e, svc := svc1, world := w1,
                    trace := [Op.readFileOp bgPath, Op.loadImageOp] ++ t1 }
              | (Except.ok _, w1, t1) =>
                  match renderAndWrite env w1 layout displayTitle outputPath 2 with
                  | (Except.error e, w2, t2) =>
                      { res := Except.error e, svc := svc1, world := w2,
                        trace := [Op.readFileOp bgPath, Op.loadImageOp] ++ t1 ++ t2 }
                  | (Except.ok _, w2, t2) =>
                      let svc2 : BannerService :=
                        { cache := addKey svc1.cache cacheKey, cacheLoaded := svc1.cacheLoaded }
                      if env.canWriteCache then
                        { res := Except.ok true, svc := svc2,
                          world := { w2 with cacheIndex := some svc2.cache },
                          trace := [Op.readFileOp bgPath, Op.loadImageOp] ++ t1 ++ t2
                            ++ [Op.writeCacheIndexOp] }
                      else
                        { res := Except.error BErr.cacheWriteError, svc := svc2, world := w2,
                          trace := [Op.readFileOp bgPath, Op.loadImageOp] ++ t1 ++ t2
                            ++ [Op.writeCacheIndexOp] }

theorem strAppend_assoc (a b c : String) : a ++ b ++ c = a ++ (b ++ c) := by
  apply String.ext
  simp [String.data_append, List.append_assoc]

theorem outputFileName_one (out : String) : outputFileName out 1 = out ++ ".jpg" := by
  unfold outputFileName
  norm_num

theorem outputFileName_two (out : String) : outputFileName out 2 = out ++ "@2x.jpg" := by
  unfold outputFileName
  norm_num
  rw [strAppend_assoc]
  rfl

theorem outFiles_ne (out : String) : outputFileName out 1 ≠ outputFileName out 2 := by
  rw [outputFileName_one, outputFileName_two]
  intro h
  have hl := congrArg String.length h
  rw [String.length_append, String.length_append] at hl
  have h4 : (".jpg" : String).length = 4 := rfl
  have h7 : ("@2x.jpg" : String).length = 7 := rfl
  omega

theorem renderAndWrite_ok (env : Env) (w : World) (layout : Layout) (dt out : String) (scale : ℕ)
    (h1 : env.overlayOk scale = true) (h2 : env.encOk (mkRaster env layout dt scale) = true)
    (h3 : env.canWrite (outputFileName out scale) = true) :
    renderAndWrite env w layout dt out scale =
      (Except.ok (), writeOut w (outputFileName out scale) (mkJpeg env layout dt scale),
        [Op.rasterizeOp scale, Op.encodeOp scale, Op.writeFileOp (outputFileName out scale)]) := by
  unfold renderAndWrite
  rw [if_pos h1, if_pos h2, if_pos h3]

theorem renderAndWrite_cases (env : Env) (w : World) (layout : Layout) (dt out : String)
    (scale : ℕ) :
    (renderAndWrite env w layout dt out scale =
      (Except.ok (), writeOut w (outputFileName out scale) (mkJpeg env layout dt scale),
        [Op.rasterizeOp scale, Op.encodeOp scale, Op.writeFileOp (outputFileName out scale)]))
    ∨ ∃ e t, renderAndWrite env w layout dt out scale = (Except.error e, w, t) ∧
        Op.writeCacheIndexOp ∉ t ∧ e ≠ BErr.cacheWriteError := by
  unfold renderAndWrite
  by_cases h1 : env.overlayOk scale = true
  · rw [if_pos h1]
    by_cases h2 : env.encOk (mkRaster env layout dt scale) = true
    · rw [if_pos h2]
      by_cases h3 : env.canWrite (outputFileName out scale) = true
      · rw [if_pos h3]
        exact Or.inl rfl
      · rw [if_neg h3]
        exact Or.inr ⟨_, _, rfl, by simp, by simp⟩
    · rw [if_neg h2]
      exact Or.inr ⟨_, _, rfl, by simp, by simp⟩
  · rw [if_neg h1]
    exact Or.inr ⟨_, _, rfl, by simp, by simp⟩

/-- The fully-determined result of a successful non-cached run. -/
def successResult (env : Env) (svc : BannerService) (w : World) (bg : Option String)
    (out title : String) (b : Bytes) (img : Img) : RunResult :=
  let bgPath := resolveBackground bg
  let svc1 := loadCache svc w
  let cacheKey := env.hash b title
  let layout := coverFit img.width img.height
  let dt := displayTitleOf env.measure title
  let f1 := outputFileName out 1
  let f2 := outputFileName out 2
  let svc2 : BannerService := { cache := addKey svc1.cache cacheKey, cacheLoaded := svc1.cacheLoaded }
  { res := Except.ok true
    svc := svc2
    world := { outFiles := (f2, mkJpeg env layout dt 2) :: (f1, mkJpeg env layout dt 1) :: w.outFiles,
               cacheIndex := some svc2.cache }
    trace := [Op.readFileOp bgPath, Op.loadImageOp,
              Op.rasterizeOp 1, Op.encodeOp 1, Op.writeFileOp f1,
              Op.rasterizeOp 2, Op.encodeOp 2, Op.writeFileOp f2,
              Op.writeCacheIndexOp] }

theorem createBanner_ok_true_inv {env : Env} {svc : BannerService} {w : World}
    {bg : Option String} {out title : String}
    (h : (createBanner env svc w bg out title).res = Except.ok true) :
    out ≠ "" ∧
    ∃ b img, env.readFile (resolveBackground bg) = some b ∧
      env.loadImage b = some img ∧
      cacheHit env svc w b out title = false ∧
      env.canWriteCache = true ∧
      createBanner env svc w bg out title = successResult env svc w bg out title b img := by
  by_cases hout : out = ""
  · rw [hout] at h
    simp [createBanner] at h
  refine ⟨hout, ?_⟩
  cases hrf : env.readFile (resolveBackground bg) with
  | none =>
      exfalso
      simp [createBanner, if_neg hout, hrf] at h
  | some b =>
      cases hhit : cacheHit env svc w b out title with
      | true =>
          exfalso
          simp [createBanner, if_neg hout, hrf, hhit] at h
      | false =>
          cases himg : env.loadImage b with
          | none =>
              exfalso
              simp [createBanner, if_neg hout, hrf, hhit, himg] at h
          | some img =>
              rcases renderAndWrite_cases env w (coverFit img.width img.height)
                  (displayTitleOf env.measure title) out 1 with hrw1 | ⟨e, t, hrw1, hnc1, hne1⟩
              · rcases renderAndWrite_cases env
                    (writeOut w (outputFileName out 1)
                      (mkJpeg env (coverFit img.width img.height) (displayTitleOf env.measure title) 1))
                    (coverFit img.width img.height)
                    (displayTitleOf env.measure title) out 2 with hrw2 | ⟨e, t, hrw2, hnc2, hne2⟩
                · cases hcwc : env.canWriteCache with
                  | false =>
                      exfalso
                      simp [createBanner, if_neg hout, hrf, hhit, himg, hrw1, hrw2, hcwc] at h
                  | true =>
                      have hfinal :
                          createBanner env svc w bg out title =
                            successResult env svc w bg out title b img := by
                        simp only [createBanner, successResult, if_neg hout, hrf, hhit, himg,
                          hrw1, hrw2, hcwc]
                        simp [writeOut]
                      exact ⟨b, img, rfl, himg, hhit, rfl, hfinal⟩
                · exfalso
                  simp [createBanner, if_neg hout, hrf, hhit, himg, hrw1, hrw2] at h
              · exfalso
                simp [createBanner, if_neg hout, hrf, hhit, himg, hrw1] at h

theorem createBanner_hit (env : Env) (svc : BannerService) (w : World) (bg : Option String)
    (out title : String) (b : Bytes)
    (hout : out ≠ "") (hrf : env.readFile (resolveBackground bg) = some b)
    (hhit : cacheHit env svc w b out title = true) :
    createBanner env svc w bg out title =
      { res := Except.ok false, svc := loadCache svc w, world := w,
        trace := [Op.readFileOp (resolveBackground bg)] } := by
  simp [createBanner, if_neg hout, hrf, hhit]

theorem createBanner_success (env : Env) (svc : BannerService) (w : World) (bg : Option String)
    (out title : String) (b : Bytes) (img : Img)
    (hout : out ≠ "") (hrf : env.readFile (resolveBackground bg) = some b)
    (hhit : cacheHit env svc w b out title = false)
    (himg : env.loadImage b = some img)
    (hov1 : env.overlayOk 1 = true) (hov2 : env.overlayOk 2 = true)
    (henc1 : env.encOk (mkRaster env (coverFit img.width img.height)
      (displayTitleOf env.measure title) 1) = true)
    (henc2 : env.encOk (mkRaster env (coverFit img.width img.height)
      (displayTitleOf env.measure title) 2) = true)
    (hcw1 : env.canWrite (outputFileName out 1) = true)
    (hcw2 : env.canWrite (outputFileName out 2) = true)
    (hcwc : env.canWriteCache = true) :
    createBanner env svc w bg out title = successResult env svc w bg out title b img := by
  have hrw1 := renderAndWrite_ok env w (coverFit img.width img.height)
    (displayTitleOf env.measure title) out 1 hov1 henc1 hcw1
  have hrw2 := renderAndWrite_ok env
    (writeOut w (outputFileName out 1)
      (mkJpeg env (coverFit img.width img.height) (displayTitleOf env.measure title) 1))
    (coverFit img.width img.height) (displayTitleOf env.measure title) out 2 hov2 henc2 hcw2
  simp only [createBanner, successResult, if_neg hout, hrf, hhit, himg, hrw1, hrw2, hcwc]
  simp [writeOut]

theorem loadCache_mem (svc : BannerService) (w : World) (k : String)
    (h : k ∈ (loadCache svc w).cache) : k ∈ svc.cache ∨ k ∈ w.cacheIndex.getD [] := by
  unfold loadCache at h
  split at h
  · exact Or.inl h
  · exact Or.inr h

theorem createBanner_error_state {env : Env} {svc : BannerService} {w : World}
    {bg : Option String} {out title : String} {e : BErr}
    (h : (createBanner env svc w bg out title).res = Except.error e)
    (hne : e ≠ BErr.cacheWriteError) :
    (createBanner env svc w bg out title).world.cacheIndex = w.cacheIndex ∧
    Op.writeCacheIndexOp ∉ (createBanner env svc w bg out title).trace ∧
    ∀ k : String, k ∈ (createBanner env svc w bg out title).svc.cache →
      k ∈ svc.cache ∨ k ∈ w.cacheIndex.getD [] := by
  by_cases hout : out = ""
  · have hres : createBanner env svc w bg out title =
        { res := Except.error BErr.outputPathNotSet, svc := svc, world := w, trace := [] } := by
      simp [createBanner, hout]
    rw [hres]
    exact ⟨rfl, by simp, fun k hk => Or.inl hk⟩
  cases hrf : env.readFile (resolveBackground bg) with
  | none =>
      have hres : createBanner env svc w bg out title =
          { res := Except.error BErr.readError, svc := loadCache svc w, world := w,
            trace := [Op.readFileOp (resolveBackground bg)] } := by
        simp [createBanner, if_neg hout, hrf]
      rw [hres]
      exact ⟨rfl, by simp, fun k hk => loadCache_mem svc w k hk⟩
  | some b =>
      cases hhit : cacheHit env svc w b out title with
      | true =>
          exfalso
          rw [createBanner_hit env svc w bg out title b hout hrf hhit] at h
          simp at h
      | false =>
          cases himg : env.loadImage b with
          | none =>
              have hres : createBanner env svc w bg out title =
                  { res := Except.error BErr.imageError, svc := loadCache svc w, world := w,
                    trace := [Op.readFileOp (resolveBackground bg), Op.loadImageOp] } := by
                simp [createBanner, if_neg hout, hrf, hhit, himg]
              rw [hres]
              exact ⟨rfl, by simp, fun k hk => loadCache_mem svc w k hk⟩
          | some img =>
              rcases renderAndWrite_cases env w (coverFit img.width img.height)
                  (displayTitleOf env.measure title) out 1 with hrw1 | ⟨e1, t1, hrw1, hnc1, hne1⟩
              · rcases renderAndWrite_cases env
                    (writeOut w (outputFileName out 1)
                      (mkJpeg env (coverFit img.width img.height)
                        (displayTitleOf env.measure title) 1))
                    (coverFit img.width img.height)
                    (displayTitleOf env.measure title) out 2 with hrw2 | ⟨e2, t2, hrw2, hnc2, hne2⟩
                · cases hcwc : env.canWriteCache with
                  | true =>
                      exfalso
                      have hres : (createBanner env svc w bg out title).res = Except.ok true := by
                        simp only [createBanner, if_neg hout, hrf, hhit, himg, hrw1, hrw2, hcwc]
                        simp
                      rw [hres] at h
                      simp at h
                  | false =>
                      have hres : createBanner env svc w bg out title =
                          { res := Except.error BErr.cacheWriteError,
                            svc := { cache := addKey (loadCache svc w).cache (env.hash b title),
                                     cacheLoaded := (loadCache svc w).cacheLoaded },
                            world := writeOut
                              (writeOut w (outputFileName out 1)
                                (mkJpeg env (coverFit img.width img.height)
                                  (displayTitleOf env.measure title) 1))
                              (outputFileName out 2)
                              (mkJpeg env (coverFit img.width img.height)
                                (displayTitleOf env.measure title) 2),
                            trace := [Op.readFileOp (resolveBackground bg), Op.loadImageOp,
                              Op.rasterizeOp 1, Op.encodeOp 1, Op.writeFileOp (outputFileName out 1),
                              Op.rasterizeOp 2, Op.encodeOp 2, Op.writeFileOp (outputFileName out 2),
                              Op.writeCacheIndexOp] } := by
                        simp only [createBanner, if_neg hout, hrf, hhit, himg, hrw1, hrw2, hcwc]
                        simp [writeOut]
                      exfalso
                      rw [hres] at h
                      simp at h
                      exact hne h.symm
                · have hres : createBanner env svc w bg out title =
                      { res := Except.error e2,
                        svc := loadCache svc w,
                        world := writeOut w (outputFileName out 1)
                          (mkJpeg env (coverFit img.width img.height)
                            (displayTitleOf env.measure title) 1),
                        trace := [Op.readFileOp (resolveBackground bg), Op.loadImageOp,
                          Op.rasterizeOp 1, Op.encodeOp 1,
                          Op.writeFileOp (outputFileName out 1)] ++ t2 } := by
                    simp only [createBanner, if_neg hout, hrf, hhit, himg, hrw1, hrw2]
                    simp
                  rw [hres]
                  refine ⟨rfl, ?_, fun k hk => loadCache_mem svc w k hk⟩
                  simp [hnc2]
              · have hres : createBanner env svc w bg out title =
                    { res := Except.error e1,
                      svc := loadCache svc w,
                      world := w,
                      trace := [Op.readFileOp (resolveBackground bg), Op.loadImageOp] ++ t1 } := by
                  simp only [createBanner, if_neg hout, hrf, hhit, himg, hrw1]
                  simp
                rw [hres]
                refine ⟨rfl, ?_, fun k hk => loadCache_mem svc w k hk⟩
                simp [hnc1]

theorem loadCache_loaded (svc : BannerService) (w : World) :
    (loadCache svc w).cacheLoaded = true := by
  unfold loadCache
  split
  · rename_i h; exact h
  · rfl

theorem loadCache_of_loaded (svc : BannerService) (w : World) (h : svc.cacheLoaded = true) :
    loadCache svc w = svc := by
  unfold loadCache
  rw [if_pos h]

theorem addKey_mem (l : List String) (k : String) : k ∈ addKey l k := by
  unfold addKey
  split
  · rename_i h; simpa using h
  · simp

theorem outNames_ne (out : String) : (out ++ ".jpg" : String) ≠ out ++ "@2x.jpg" := by
  intro h
  have hl := congrArg String.length h
  rw [String.length_append, String.length_append] at hl
  have h4 : (".jpg" : String).length = 4 := rfl
  have h7 : ("@2x.jpg" : String).length = 7 := rfl
  omega

theorem lookup_success_one (out : String) (j1 j2 : Jpeg) (rest : List (String × Jpeg)) :
    List.lookup (out ++ ".jpg")
      ((outputFileName out 2, j2) :: (outputFileName out 1, j1) :: rest) = some j1 := by
  rw [outputFileName_two, outputFileName_one]
  simp [List.lookup, beq_eq_false_iff_ne.mpr (outNames_ne out)]

theorem lookup_success_two (out : String) (j1 j2 : Jpeg) (rest : List (String × Jpeg)) :
    List.lookup (out ++ "@2x.jpg")
      ((outputFileName out 2, j2) :: (outputFileName out 1, j1) :: rest) = some j2 := by
  rw [outputFileName_two]
  simp [List.lookup]

/-- C10: an empty output path makes `createBanner` throw (line 83) before
any file read, render, or write, leaving the in-memory cache and every file
untouched. -/
theorem createBanner_emptyOutputPath (env : Env) (svc : BannerService) (w : World)
    (bg : Option String) (title : String) :
    createBanner env svc w bg "" title =
      { res := Except.error BErr.outputPathNotSet, svc := svc, world := w, trace := [] } := by
  simp [createBanner]

theorem createBanner_notHit_res (env : Env) (svc : BannerService) (w : World)
    (bg : Option String) (out title : String) (b : Bytes)
    (hout : out ≠ "") (hrf : env.readFile (resolveBackground bg) = some b)
    (hhit : cacheHit env svc w b out title = false) :
    (createBanner env svc w bg out title).res ≠ Except.ok false := by
  cases himg : env.loadImage b with
  | none =>
      have hres : (createBanner env svc w bg out title).res = Except.error BErr.imageError := by
        simp [createBanner, if_neg hout, hrf, hhit, himg]
      rw [hres]
      simp
  | some img =>
      rcases renderAndWrite_cases env w (coverFit img.width img.height)
          (displayTitleOf env.measure title) out 1 with hrw1 | ⟨e1, t1, hrw1, hnc1, hne1⟩
      · rcases renderAndWrite_cases env
            (writeOut w (outputFileName out 1)
              (mkJpeg env (coverFit img.width img.height) (displayTitleOf env.measure title) 1))
            (coverFit img.width img.height)
            (displayTitleOf env.measure title) out 2 with hrw2 | ⟨e2, t2, hrw2, hnc2, hne2⟩
        · cases hcwc : env.canWriteCache with
          | true =>
              have hres : (createBanner env svc w bg out title).res = Except.ok true := by
                simp only [createBanner, if_neg hout, hrf, hhit, himg, hrw1, hrw2, hcwc]
                simp
              rw [hres]
              simp
          | false =>
              have hres : (createBanner env svc w bg out title).res =
                  Except.error BErr.cacheWriteError := by
                simp only [createBanner, if_neg hout, hrf, hhit, himg, hrw1, hrw2, hcwc]
                simp
              rw [hres]
              simp
        · have hres : (createBanner env svc w bg out title).res = Except.error e2 := by
            simp only [createBanner, if_neg hout, hrf, hhit, himg, hrw1, hrw2]
            simp
          rw [hres]
          simp
      · have hres : (createBanner env svc w bg out title).res = Except.error e1 := by
          simp only [createBanner, if_neg hout, hrf, hhit, himg, hrw1]
          simp
        rw [hres]
        simp

/-- The property bundle of claim C1 for one run: a cache hit (key recorded
in the lazily loaded cache and both output files on disk) returns `false`
having performed nothing but the background read; a `false` result can only
arise from a hit; and with no hit, if every external operation succeeds the
run regenerates and returns `true`. -/
def CachedIffSpec (env : Env) (svc : BannerService) (w : World) (bg : Option String)
    (out title : String) (b : Bytes) : Prop :=
  ((env.hash b title ∈ (loadCache svc w).cache ∧ fileExists w (out ++ ".jpg") = true ∧
      fileExists w (out ++ "@2x.jpg") = true) →
    createBanner env svc w bg out title =
      { res := Except.ok false, svc := loadCache svc w, world := w,
        trace := [Op.readFileOp (resolveBackground bg)] }) ∧
  ((createBanner env svc w bg out title).res = Except.ok false →
    env.hash b title ∈ (loadCache svc w).cache ∧ fileExists w (out ++ ".jpg") = true ∧
      fileExists w (out ++ "@2x.jpg") = true) ∧
  (¬(env.hash b title ∈ (loadCache svc w).cache ∧ fileExists w (out ++ ".jpg") = true ∧
      fileExists w (out ++ "@2x.jpg") = true) →
    (∀ x, (env.loadImage x).isSome = true) → (∀ s, env.overlayOk s = true) →
    (∀ r, env.encOk r = true) → (∀ p, env.canWrite p = true) → env.canWriteCache = true →
    (createBanner env svc w bg out title).res = Except.ok true)

theorem cacheHit_iff (env : Env) (svc : BannerService) (w : World) (b : Bytes)
    (out title : String) :
    cacheHit env svc w b out title = true ↔
      (env.hash b title ∈ (loadCache svc w).cache ∧ fileExists w (out ++ ".jpg") = true ∧
        fileExists w (out ++ "@2x.jpg") = true) := by
  simp [cacheHit, Bool.and_eq_true, and_assoc]

/-- C1: a `createBanner` call returns `false` ("used cached") with no
layout, rasterization, encoding, or cache write if and only if the computed
key is in the cache set and both output files exist on disk; in particular
a recorded key with a missing output file is a miss and (all external
operations succeeding) the banners are regenerated with result `true`. -/
theorem createBanner_cachedIff (env : Env) (svc : BannerService) (w : World)
    (bg : Option String) (out title : String) (b : Bytes)
    (hout : out ≠ "") (hrf : env.readFile (resolveBackground bg) = some b) :
    CachedIffSpec env svc w bg out title b := by
  unfold CachedIffSpec
  refine ⟨?_, ?_, ?_⟩
  · intro hc
    exact createBanner_hit env svc w bg out title b hout hrf
      ((cacheHit_iff env svc w b out title).mpr hc)
  · intro hres
    cases hhit : cacheHit env svc w b out title with
    | true => exact (cacheHit_iff env svc w b out title).mp hhit
    | false => exact absurd hres (createBanner_notHit_res env svc w bg out title b hout hrf hhit)
  · intro hc hAllImg hov henc hcw hcwc
    have hhit : cacheHit env svc w b out title = false := by
      cases hhit : cacheHit env svc w b out title with
      | true => exact absurd ((cacheHit_iff env svc w b out title).mp hhit) hc
      | false => rfl
    rcases Option.isSome_iff_exists.mp (hAllImg b) with ⟨img, himg⟩
    rw [createBanner_success env svc w bg out title b img hout hrf hhit himg
      (hov 1) (hov 2) (henc _) (henc _) (hcw _) (hcw _) hcwc]
    rfl

def isWriteOp : Op → Bool := fun op =>
  match op with
  | Op.writeFileOp _ => true
  | _ => false

/-- The property bundle of claim C6 for a completed non-cached run: exactly
two file writes were performed, to `<stem>.jpg` and `<stem>@2x.jpg`, and the
files hold JPEGs of pixel dimensions 670x200 and 1340x400, the second
exactly double the first in both axes. -/
def TwoScaleSpec (r : RunResult) (out : String) : Prop :=
  r.trace.filter isWriteOp =
    [Op.writeFileOp (out ++ ".jpg"), Op.writeFileOp (out ++ "@2x.jpg")] ∧
  ∃ j1 j2 : Jpeg,
    r.world.outFiles.lookup (out ++ ".jpg") = some j1 ∧
    r.world.outFiles.lookup (out ++ "@2x.jpg") = some j2 ∧
    j1.width = 670 ∧ j1.height = 200 ∧ j2.width = 1340 ∧ j2.height = 400 ∧
    j2.width = 2 * j1.width ∧ j2.height = 2 * j1.height

/-- C6: every completed non-cached `createBanner` call writes exactly the
two output files at 670x200 and 1340x400. -/
theorem createBanner_twoScale {env : Env} {svc : BannerService} {w : World}
    {bg : Option String} {out title : String}
    (h : (createBanner env svc w bg out title).res = Except.ok true) :
    TwoScaleSpec (createBanner env svc w bg out title) out := by
  obtain ⟨hout, b, img, hrf, himg, hhit, hcwc, hrun⟩ := createBanner_ok_true_inv h
  rw [hrun]
  unfold TwoScaleSpec successResult
  refine ⟨?_,
    mkJpeg env (coverFit img.width img.height) (displayTitleOf env.measure title) 1,
    mkJpeg env (coverFit img.width img.height) (displayTitleOf env.measure title) 2,
    ?_, ?_, ?_, ?_, ?_, ?_, ?_, ?_⟩
  · simp [isWriteOp, List.filter, outputFileName_one, outputFileName_two]
  · exact lookup_success_one out _ _ _
  · exact lookup_success_two out _ _ _
  · simp [mkJpeg, mkRaster, UNSCALED_WIDTH]
  · simp [mkJpeg, mkRaster, UNSCALED_HEIGHT]
  · simp [mkJpeg, mkRaster, UNSCALED_WIDTH]
  · simp [mkJpeg, mkRaster, UNSCALED_HEIGHT]
  · simp [mkJpeg, mkRaster, Nat.mul_comm]
  · simp [mkJpeg, mkRaster, Nat.mul_comm]

/-- The property bundle of claim C4: with deterministic inputs, the first
call generates (`true`) and the immediately following call with the same
arguments and the resulting state is a cache hit (`false`) that performs no
encode and no file write and leaves every file and the in-memory state
unchanged. -/
def IdempotenceSpec (env : Env) (svc : BannerService) (w : World) (bg : Option String)
    (out title : String) : Prop :=
  let r1 := createBanner env svc w bg out title
  let r2 := createBanner env r1.svc r1.world bg out title
  r1.res = Except.ok true ∧ r2.res = Except.ok false ∧
  r2.world = r1.world ∧ r2.svc = r1.svc ∧
  (∀ s, Op.encodeOp s ∉ r2.trace) ∧ (∀ p, Op.writeFileOp p ∉ r2.trace)

/-- C4: calling `createBanner` twice in succession with identical inputs
returns `true` then `false`; the second call encodes nothing, writes
nothing, and leaves the output files byte-identical. -/
theorem createBanner_idempotent (env : Env) (svc : BannerService) (w : World)
    (bg : Option String) (out title : String) (b : Bytes) (img : Img)
    (hout : out ≠ "") (hrf : env.readFile (resolveBackground bg) = some b)
    (hhit : cacheHit env svc w b out title = false)
    (himg : env.loadImage b = some img)
    (hov : ∀ s, env.overlayOk s = true) (henc : ∀ r, env.encOk r = true)
    (hcw : ∀ p, env.canWrite p = true) (hcwc : env.canWriteCache = true) :
    IdempotenceSpec env svc w bg out title := by
  have hrun1 : createBanner env svc w bg out title = successResult env svc w bg out title b img :=
    createBanner_success env svc w bg out title b img hout hrf hhit himg
      (hov 1) (hov 2) (henc _) (henc _) (hcw _) (hcw _) hcwc
  have hsvc1 : (successResult env svc w bg out title b img).svc =
      { cache := addKey (loadCache svc w).cache (env.hash b title),
        cacheLoaded := (loadCache svc w).cacheLoaded } := rfl
  have hworld1 : (successResult env svc w bg out title b img).world =
      { outFiles :=
          (outputFileName out 2,
            mkJpeg env (coverFit img.width img.height) (displayTitleOf env.measure title) 2) ::
          (outputFileName out 1,
            mkJpeg env (coverFit img.width img.height) (displayTitleOf env.measure title) 1) ::
          w.outFiles,
        cacheIndex := some (addKey (loadCache svc w).cache (env.hash b title)) } := rfl
  have hloaded2 : (successResult env svc w bg out title b img).svc.cacheLoaded = true := by
    rw [hsvc1]
    exact loadCache_loaded svc w
  have hload2 : loadCache (successResult env svc w bg out title b img).svc
      (successResult env svc w bg out title b img).world =
      (successResult env svc w bg out title b img).svc :=
    loadCache_of_loaded _ _ hloaded2
  have hhit2 : cacheHit env (successResult env svc w bg out title b img).svc
      (successResult env svc w bg out title b img).world b out title = true := by
    rw [cacheHit_iff]
    refine ⟨?_, ?_, ?_⟩
    · rw [hload2, hsvc1]
      exact addKey_mem _ _
    · unfold fileExists
      rw [hworld1]
      rw [lookup_success_one out _ _ _]
      rfl
    · unfold fileExists
      rw [hworld1]
      rw [lookup_success_two out _ _ _]
      rfl
  have hrun2 : createBanner env (successResult env svc w bg out title b img).svc
      (successResult env svc w bg out title b img).world bg out title =
      { res := Except.ok false,
        svc := loadCache (successResult env svc w bg out title b img).svc
          (successResult env svc w bg out title b img).world,
        world := (successResult env svc w bg out title b img).world,
        trace := [Op.readFileOp (resolveBackground bg)] } :=
    createBanner_hit env _ _ bg out title b hout hrf hhit2
  unfold IdempotenceSpec
  dsimp only
  rw [hrun1, hrun2]
  exact ⟨rfl, rfl, rfl, hload2, fun s => by simp, fun p => by simp⟩

/-- The cache-preservation bundle of claim C5: on a failed run, the cache
index file was not rewritten and the in-memory cache set holds no key beyond
what was already in memory or in the index file (in particular it has not
gained the request's key). -/
def ErrorKeepsCacheSpec (env : Env) (svc : BannerService) (w : World) (bg : Option String)
    (out title : String) : Prop :=
  (createBanner env svc w bg out title).world.cacheIndex = w.cacheIndex ∧
  Op.writeCacheIndexOp ∉ (createBanner env svc w bg out title).trace ∧
  ∀ k : String, k ∈ (createBanner env svc w bg out title).svc.cache →
    k ∈ svc.cache ∨ k ∈ w.cacheIndex.getD []

/-- C5: an I/O, image-load, rasterization, or encoding failure (that is, any
failure other than the final cache-index write) propagates as the result of
the call, and the CacheStore is unchanged: the cache index file is not
rewritten and the in-memory set gains no key; the key is recorded only
after both scales have been encoded and written successfully. -/
theorem createBanner_error_preservesCache {env : Env} {svc : BannerService} {w : World}
    {bg : Option String} {out title : String} {e : BErr}
    (h : (createBanner env svc w bg out title).res = Except.error e)
    (hne : e ≠ BErr.cacheWriteError) :
    ErrorKeepsCacheSpec env svc w bg out title :=
  createBanner_error_state h hne

/-- The amended property bundle of claim C7: when only the cache-index
write fails, the call fails with that error rather than returning `true`,
although both output files have been generated and written and the
in-memory set holds the key; only the persisted index is stale. -/
def CacheWriteFailureSpec (env : Env) (svc : BannerService) (w : World) (bg : Option String)
    (out title : String) (b : Bytes) : Prop :=
  let r := createBanner env svc w bg out title
  r.res = Except.error BErr.cacheWriteError ∧
  fileExists r.world (out ++ ".jpg") = true ∧
  fileExists r.world (out ++ "@2x.jpg") = true ∧
  env.hash b title ∈ r.svc.cache ∧
  r.world.cacheIndex = w.cacheIndex

/-- C7 (amended): a failed cache-index write after a successful generation
propagates as an error (the call does not return `true`), even though both
output files were already written and the in-memory set retains the key. -/
theorem createBanner_cacheWriteFailure (env : Env) (svc : BannerService) (w : World)
    (bg : Option String) (out title : String) (b : Bytes) (img : Img)
    (hout : out ≠ "") (hrf : env.readFile (resolveBackground bg) = some b)
    (hhit : cacheHit env svc w b out title = false)
    (himg : env.loadImage b = some img)
    (hov : ∀ s, env.overlayOk s = true) (henc : ∀ r, env.encOk r = true)
    (hcw : ∀ p, env.canWrite p = true) (hcwc : env.canWriteCache = false) :
    CacheWriteFailureSpec env svc w bg out title b := by
  have hrw1 := renderAndWrite_ok env w (coverFit img.width img.height)
    (displayTitleOf env.measure title) out 1 (hov 1)
    (henc _) (hcw _)
  have hrw2 := renderAndWrite_ok env
    (writeOut w (outputFileName out 1)
      (mkJpeg env (coverFit img.width img.height) (displayTitleOf env.measure title) 1))
    (coverFit img.width img.height) (displayTitleOf env.measure title) out 2 (hov 2)
    (henc _) (hcw _)
  have hrun : createBanner env svc w bg out title =
      { res := Except.error BErr.cacheWriteError,
        svc := { cache := addKey (loadCache svc w).cache (env.hash b title),
                 cacheLoaded := (loadCache svc w).cacheLoaded },
        world := writeOut
          (writeOut w (outputFileName out 1)
            (mkJpeg env (coverFit img.width img.height) (displayTitleOf env.measure title) 1))
          (outputFileName out 2)
          (mkJpeg env (coverFit img.width img.height) (displayTitleOf env.measure title) 2),
        trace := [Op.readFileOp (resolveBackground bg), Op.loadImageOp,
          Op.rasterizeOp 1, Op.encodeOp 1, Op.writeFileOp (outputFileName out 1),
          Op.rasterizeOp 2, Op.encodeOp 2, Op.writeFileOp (outputFileName out 2),
          Op.writeCacheIndexOp] } := by
    simp only [createBanner, if_neg hout, hrf, hhit, himg, hrw1, hrw2, hcwc]
    simp [writeOut]
  unfold CacheWriteFailureSpec
  dsimp only
  rw [hrun]
  refine ⟨rfl, ?_, ?_, addKey_mem _ _, rfl⟩
  · unfold fileExists writeOut
    dsimp only
    rw [lookup_success_one out _ _ _]
    rfl
  · unfold fileExists writeOut
    dsimp only
    rw [lookup_success_two out _ _ _]
    rfl

/-- A concrete deterministic environment in which every external operation
succeeds; the measure maps every title below the truncation threshold. -/
def envAllOk : Env :=
  { readFile := fun _ => some [1]
    loadImage := fun _ => some { width := 100, height := 100 }
    measure := fun _ => 0
    hash := fun _ _ => "k"
    paint := fun _ _ s => s
    overlayOk := fun _ => true
    encOk := fun _ => true
    encPayload := fun r => r.width
    canWrite := fun _ => true
    canWriteCache := true }

/-- Same as `envAllOk` except the cache index file is unwritable. -/
def envNoCacheWrite : Env := { envAllOk with canWriteCache := false }

/-- Same as `envAllOk` except decoding the background image fails. -/
def envNoImage : Env := { envAllOk with loadImage := fun _ => none }

def svc0 : BannerService := { cache := [], cacheLoaded := false }

def w0 : World := { outFiles := [], cacheIndex := none }

/-- Witness for C1 at a concrete environment and fresh state. -/
theorem createBanner_cachedIff_witness :
    (("o" : String) ≠ "" ∧ envAllOk.readFile (resolveBackground none) = some [1]) ∧
    CachedIffSpec envAllOk svc0 w0 none "o" "t" [1] :=
  ⟨⟨by decide, rfl⟩, createBanner_cachedIff envAllOk svc0 w0 none "o" "t" [1] (by decide) rfl⟩

/-- Witness for C4 at a concrete environment and fresh state. -/
theorem createBanner_idempotent_witness :
    (("o" : String) ≠ "" ∧ envAllOk.readFile (resolveBackground none) = some [1] ∧
      cacheHit envAllOk svc0 w0 [1] "o" "t" = false ∧
      envAllOk.loadImage [1] = some { width := 100, height := 100 } ∧
      (∀ s, envAllOk.overlayOk s = true) ∧ (∀ r, envAllOk.encOk r = true) ∧
      (∀ p, envAllOk.canWrite p = true) ∧ envAllOk.canWriteCache = true) ∧
    IdempotenceSpec envAllOk svc0 w0 none "o" "t" :=
  ⟨⟨by decide, rfl, by decide, rfl, fun _ => rfl, fun _ => rfl, fun _ => rfl, rfl⟩,
   createBanner_idempotent envAllOk svc0 w0 none "o" "t" [1] { width := 100, height := 100 }
     (by decide) rfl (by decide) rfl (fun _ => rfl) (fun _ => rfl) (fun _ => rfl) rfl⟩

/-- Witness for C5 at a concrete environment whose image decode fails. -/
theorem createBanner_error_preservesCache_witness :
    ((createBanner envNoImage svc0 w0 none "o" "t").res = Except.error BErr.imageError ∧
      BErr.imageError ≠ BErr.cacheWriteError) ∧
    ErrorKeepsCacheSpec envNoImage svc0 w0 none "o" "t" :=
  ⟨⟨by decide, by decide⟩,
   @createBanner_error_preservesCache envNoImage svc0 w0 none "o" "t" BErr.imageError
     (by decide) (by decide)⟩

/-- Witness for C6 at a concrete environment and fresh state. -/
theorem createBanner_twoScale_witness :
    (createBanner envAllOk svc0 w0 none "o" "t").res = Except.ok true ∧
    TwoScaleSpec (createBanner envAllOk svc0 w0 none "o" "t") "o" :=
  ⟨by decide, createBanner_twoScale (by decide)⟩

/-- C7 counterexample: with only the cache-index write failing, the call
does not complete with `true`; the cache-write error propagates. -/
theorem cacheWriteFailure_counterexample :
    (createBanner envNoCacheWrite svc0 w0 none "o" "t").res =
      Except.error BErr.cacheWriteError ∧
    (createBanner envNoCacheWrite svc0 w0 none "o" "t").res ≠ Except.ok true :=
  ⟨by decide, by decide⟩

/-- Witness for C7 (amended) at a concrete environment whose cache index
file is unwritable. -/
theorem createBanner_cacheWriteFailure_witness :
    (("o" : String) ≠ "" ∧ envNoCacheWrite.readFile (resolveBackground none) = some [1] ∧
      cacheHit envNoCacheWrite svc0 w0 [1] "o" "t" = false ∧
      envNoCacheWrite.loadImage [1] = some { width := 100, height := 100 } ∧
      (∀ s, envNoCacheWrite.overlayOk s = true) ∧ (∀ r, envNoCacheWrite.encOk r = true) ∧
      (∀ p, envNoCacheWrite.canWrite p = true) ∧ envNoCacheWrite.canWriteCache = false) ∧
    CacheWriteFailureSpec envNoCacheWrite svc0 w0 none "o" "t" [1] :=
  ⟨⟨by decide, rfl, by decide, rfl, fun _ => rfl, fun _ => rfl, fun _ => rfl, rfl⟩,
   createBanner_cacheWriteFailure envNoCacheWrite svc0 w0 none "o" "t" [1]
     { width := 100, height := 100 }
     (by decide) rfl (by decide) rfl (fun _ => rfl) (fun _ => rfl) (fun _ => rfl) rfl⟩
